import Mathlib

/-!
Verification of the original logic in the PSA_TAP notebook
(`PSA_TAP_AS_Forum_short.ipynb`): the PDS3 attached-label locator, the
label reader, and the fixed-width binary image unpacker.

The Python fragments are embedded shallowly:

* zip listings are lists of path strings; `pathlib.PurePath(...).parts`
  is modelled by `parts` (splitting on `/` and dropping empty segments,
  which agrees with `PurePath` on the relative, already-normalised paths
  that appear in zip listings);
* Python exceptions become `Except` values; the two distinct
  `IndexError` messages raised by the locator (`tuple index out of
  range` from `PurePath(...).parts[1]`, `list index out of range` from
  indexing `[...][0]` on the empty match list) are kept apart as two
  constructors of `PyError`;
* the byte buffer is a `List Nat` of byte values; `struct.unpack_from`
  with format `'<%dH'` is `unpack_from`, which checks the buffer length
  up front exactly as CPython's `struct` module does and otherwise
  decodes consecutive 2-byte little-endian unsigned integers;
* `numpy.reshape((d0, d1))` on a flat integer vector is `reshape2`
  (row-major C order, numpy's default);
* the `read_label` while-loop is embedded with explicit fuel; a `none`
  result means the loop has not terminated within the given number of
  iterations, so a result of `none` for every fuel value is
  non-termination of the Python loop.
-/

/-! ## Label locator

Source cell:
`data_file = [file for file in zipfiles[:-1] if PurePath(file).parts[1]=='DATA'][0]`
-/

/-- The two `IndexError` sites of the locator, kept distinct the way the
CPython messages are distinct: `PurePath(file).parts[1]` on a tuple that
is too short raises `tuple index out of range`, while `[...][0]` on an
empty match list raises `list index out of range`. -/
inductive PyError where
  | tupleIndexOutOfRange
  | listIndexOutOfRange
deriving DecidableEq, Repr

/-- Split a character list at every `/`. -/
def splitSlash : List Char → List Char → List String
  | [], acc => [String.mk acc.reverse]
  | c :: cs, acc =>
      if c = '/' then String.mk acc.reverse :: splitSlash cs []
      else splitSlash cs (c :: acc)

/-- `pathlib.PurePath(s).parts` for the relative normalised paths stored
in a zip listing: split on the separator and drop empty segments. -/
def parts (s : String) : List String :=
  (splitSlash s.data []).filter (fun c => c != "")

/-- The comprehension's predicate: the path's second component (index 1,
zero-based) equals `"DATA"`. -/
def isDATA (q : String) : Bool := (parts q).getD 1 "" == "DATA"

deriving instance DecidableEq for Except

/-- Indexing a Python tuple of path components: `parts[i]`, raising
`IndexError: tuple index out of range` when the tuple is too short. -/
def parts_get (p : List String) (i : Nat) : Except PyError String :=
  match p[i]? with
  | some s => Except.ok s
  | none => Except.error PyError.tupleIndexOutOfRange

/-- The list comprehension
`[file for file in ... if PurePath(file).parts[1]=='DATA']`: evaluated
eagerly over the whole input, raising at the first path whose component
tuple has no index 1. -/
def select_DATA : List String → Except PyError (List String)
  | [] => Except.ok []
  | f :: rest =>
      match parts_get (parts f) 1 with
      | Except.error e => Except.error e
      | Except.ok s =>
          match select_DATA rest with
          | Except.error e => Except.error e
          | Except.ok tail =>
              if s = "DATA" then Except.ok (f :: tail) else Except.ok tail

/-- `data_file = [file for file in zipfiles[:-1] if PurePath(file).parts[1]=='DATA'][0]`:
the comprehension runs over all entries except the last (`zipfiles[:-1]`),
and `[0]` on an empty result raises `IndexError: list index out of range`. -/
def data_file (zipfiles : List String) : Except PyError String :=
  match select_DATA zipfiles.dropLast with
  | Except.error e => Except.error e
  | Except.ok [] => Except.error PyError.listIndexOutOfRange
  | Except.ok (f :: _) => Except.ok f

/-! ## Label reader

Source cell:
```
def read_label(data_file):
    label = []
    with zip.open(data_file) as f:
        line = f.readline().decode('utf8')
        while line.strip() != 'END':
            if line.strip() == '':
                line = f.readline().decode('utf8')
                continue
            else:
                label.append(line.strip())
                line = f.readline().decode('utf8')
    return '\r\n'.join(label)
```
-/

/-- Python's whitespace set for `str.strip()`. -/
def pyWhitespace (c : Char) : Bool :=
  c == ' ' || c == '\t' || c == '\n' || c == '\r' || c == '\x0b' || c == '\x0c'

/-- Python `str.strip()`: drop leading and trailing whitespace. -/
def pyStrip (s : String) : String :=
  String.mk (((s.data.dropWhile pyWhitespace).reverse.dropWhile pyWhitespace).reverse)

/-- `f.readline()` on the remaining lines of the entry: at end of file it
returns the empty string, and keeps returning it on every further call. -/
def readlineEOF : List String → String × List String
  | [] => ("", [])
  | l :: rest => (l, rest)

/-- The `while line.strip() != 'END'` loop of `read_label`, with explicit
fuel counting loop iterations. `none` means the loop has not exited within
`fuel` iterations; `some label` means it exited normally having accumulated
`label`. The Python loop performs exactly one `readline` per iteration. -/
def read_label_loop : Nat → String → List String → List String → Option (List String)
  | 0, _, _, _ => none
  | fuel + 1, line, rest, label =>
      if pyStrip line = "END" then some label
      else if pyStrip line = "" then
        read_label_loop fuel (readlineEOF rest).1 (readlineEOF rest).2 label
      else
        read_label_loop fuel (readlineEOF rest).1 (readlineEOF rest).2
          (label ++ [pyStrip line])

/-- `read_label` on the sequence of lines of the selected entry: one
initial `readline`, then the loop; on success the accumulated stripped
lines are joined with CRLF. -/
def read_label (fuel : Nat) (entry : List String) : Option String :=
  (read_label_loop fuel (readlineEOF entry).1 (readlineEOF entry).2 []).map
    (String.intercalate "\r\n")

/-! ## Image unpacker

Source cells:
```
offset = (meta['^IMAGE']-1) * meta['RECORD_BYTES']
rows = meta['IMAGE']['LINES']
cols = meta['IMAGE']['LINE_SAMPLES']
samples = rows * cols
data = struct.unpack_from('<%dH' % samples, zip.open(data_file).read(), offset)
data = np.array(data).reshape((cols, rows))
```
-/

/-- `struct.error`: the decoding error `struct.unpack_from` raises, before
touching any byte, when the buffer is too short for the requested format
(`unpack_from requires a buffer of at least ... bytes`). -/
inductive StructError where
  | truncated
deriving DecidableEq, Repr

/-- `offset = (meta['^IMAGE']-1) * meta['RECORD_BYTES']` with the object
pointer `P` (1-based) and the record byte size `R`. -/
def offset (P R : Nat) : Nat := (P - 1) * R

/-- One `<H` item: the 2-byte unsigned little-endian integer at byte
index `i` of the buffer. -/
def readU16LE (buf : List Nat) (i : Nat) : Nat :=
  buf.getD i 0 + 256 * buf.getD (i + 1) 0

/-- `struct.unpack_from('<%dH' % count, buf, off)`: CPython first checks
that the buffer holds at least `off + 2*count` bytes and raises
`struct.error` otherwise; only then does it read the `count` consecutive
little-endian `uint16` samples. -/
def unpack_from (count : Nat) (buf : List Nat) (off : Nat) :
    Except StructError (List Nat) :=
  if buf.length < off + 2 * count then Except.error StructError.truncated
  else Except.ok ((List.range count).map (fun i => readU16LE buf (off + 2 * i)))

/-- `np.array(flat).reshape((d0, d1))` for a flat integer vector of length
`d0 * d1`: numpy's default row-major (C) order, so entry `(i, j)` of the
result is `flat[d1*i + j]`. -/
def reshape2 (flat : List Nat) (d0 d1 : Nat) : List (List Nat) :=
  (List.range d0).map (fun i => (List.range d1).map (fun j => flat.getD (d1 * i + j) 0))

/-- The whole unpacking pipeline on the entry's raw bytes with label
fields `P` (pointer), `R` (record bytes), `L` (LINES), `S` (LINE_SAMPLES):
`samples = L * S` values decoded from byte offset `(P-1)*R`, reshaped to
shape `(S, L)`. -/
def unpack_image (buf : List Nat) (P R L S : Nat) :
    Except StructError (List (List Nat)) :=
  (unpack_from (L * S) buf (offset P R)).map (fun flat => reshape2 flat S L)

/-! ## Encoder used for the round-trip property -/

/-- Encode one sample as its two little-endian bytes. -/
def encodeU16LE (v : Nat) : List Nat := [v % 256, v / 256 % 256]

/-- Encode a flat sample sequence as consecutive 2-byte little-endian
unsigned integers. -/
def encodeSamples (vs : List Nat) : List Nat := vs.flatMap encodeU16LE

/-- Encode a 2D grid row-major, each sample as 2 little-endian bytes. -/
def encodeGrid (g : List (List Nat)) : List Nat := encodeSamples g.flatten

/-! ## Helper lemmas about the locator -/

theorem select_DATA_error_of_short (l : List String)
    (h : ∃ q ∈ l, (parts q).length < 2) :
    select_DATA l = Except.error PyError.tupleIndexOutOfRange := by
  induction l with
  | nil => simp at h
  | cons f rest ih =>
      by_cases hf : (parts f).length < 2
      · have hn : (parts f)[1]? = none := by
          rw [List.getElem?_eq_none_iff]; omega
        simp [select_DATA, parts_get, hn]
      · obtain ⟨q, hq, hqlen⟩ := h
        rcases List.mem_cons.mp hq with rfl | hq2
        · exact absurd hqlen hf
        · obtain ⟨v, hv⟩ : ∃ v, (parts f)[1]? = some v :=
            ⟨_, List.getElem?_eq_getElem (by omega)⟩
          simp [select_DATA, parts_get, hv, ih ⟨q, hq2, hqlen⟩]

theorem select_DATA_ok (l : List String) (h : ∀ q ∈ l, 2 ≤ (parts q).length) :
    select_DATA l = Except.ok (l.filter isDATA) := by
  induction l with
  | nil => simp [select_DATA]
  | cons f rest ih =>
      have hf : 2 ≤ (parts f).length := h f (List.mem_cons_self f rest)
      obtain ⟨v, hv⟩ : ∃ v, (parts f)[1]? = some v :=
        ⟨_, List.getElem?_eq_getElem (by omega)⟩
      have hd : isDATA f = (v == "DATA") := by
        simp [isDATA, List.getD_eq_getElem?_getD, hv]
      have ih2 := ih (fun q hq => h q (List.mem_cons_of_mem f hq))
      by_cases hDATA : v = "DATA"
      · simp [select_DATA, parts_get, hv, ih2, List.filter_cons, hd, hDATA]
      · simp [select_DATA, parts_get, hv, ih2, List.filter_cons, hd, hDATA]

theorem helper_filter_head_of_unique (l : List String) (pr : String → Bool) (p : String)
    (hp : p ∈ l) (hpr : pr p = true) (huniq : ∀ q ∈ l, pr q = true → q = p) :
    ∃ t, l.filter pr = p :: t := by
  induction l with
  | nil => simp at hp
  | cons a rest ih =>
      by_cases ha : pr a = true
      · have : a = p := huniq a (List.mem_cons_self a rest) ha
        subst this
        exact ⟨rest.filter pr, by simp [List.filter_cons, ha]⟩
      · have hp2 : p ∈ rest := by
          rcases List.mem_cons.mp hp with rfl | h2
          · exact absurd hpr ha
          · exact h2
        obtain ⟨t, ht⟩ := ih hp2 (fun q hq => huniq q (List.mem_cons_of_mem a hq))
        exact ⟨t, by simp [List.filter_cons, ha, ht]⟩

/-! ## Claim theorems about the locator -/

/-- C4, counterexample: a listing whose single entry has second component
"DATA" is not returned, because the comprehension runs over
`zipfiles[:-1]`, which excludes the last entry. So the locator does not
return the unique DATA entry "regardless of where in the listing it
occurs". -/
theorem data_file_c4_counterexample :
    (parts "A/DATA/x.img").getD 1 "" = "DATA" ∧
    data_file ["A/DATA/x.img"] ≠ Except.ok "A/DATA/x.img" := by decide

/-- C4 (amended): for every zip listing in which every entry except the
last has at least two path components, and exactly one entry among all
but the last has second component "DATA", the locator returns that
entry. -/
theorem data_file_returns_unique_DATA_match (zipfiles : List String) (p : String)
    (hlen : ∀ q ∈ zipfiles.dropLast, 2 ≤ (parts q).length)
    (hp : p ∈ zipfiles.dropLast)
    (hpDATA : (parts p).getD 1 "" = "DATA")
    (huniq : ∀ q ∈ zipfiles.dropLast, (parts q).getD 1 "" = "DATA" → q = p) :
    data_file zipfiles = Except.ok p := by
  obtain ⟨t, ht⟩ := helper_filter_head_of_unique zipfiles.dropLast isDATA p hp
      (by simp only [isDATA, beq_iff_eq]; exact hpDATA)
      (fun q hq hqq =>
        huniq q hq (by simp only [isDATA, beq_iff_eq] at hqq; exact hqq))
  simp [data_file, select_DATA_ok _ hlen, ht]

/-- Witness for C4 (amended) at a two-entry listing whose non-last entry
is the unique DATA match. -/
theorem data_file_returns_unique_DATA_match_witness :
    data_file ["a/DATA/f.img", "a/BROWSE/t.png"] = Except.ok "a/DATA/f.img" :=
  data_file_returns_unique_DATA_match ["a/DATA/f.img", "a/BROWSE/t.png"]
    "a/DATA/f.img" (by decide) (by decide) (by decide) (by decide)

/-- C5, counterexample: a listing with no DATA entry at all can fail with
the scan-time IndexError (`tuple index out of range` from `parts[1]`)
instead of the empty-selection IndexError, so the "no DATA entry" case is
not signalled by a distinct not-found error. -/
theorem data_file_c5_counterexample :
    data_file ["a", "b/c"] = Except.error PyError.tupleIndexOutOfRange ∧
    data_file ["a", "b/c"] ≠ Except.error PyError.listIndexOutOfRange := by decide

/-- C5 (amended): for every zip listing in which every entry except the
last has at least two path components and none of those entries has
second component "DATA", the locator fails with the IndexError raised by
`[...][0]` on the empty match list (`list index out of range`), which the
embedding keeps distinct from the scan-time `tuple index out of range`
error. -/
theorem data_file_no_match_empty_selection_error (zipfiles : List String)
    (hlen : ∀ q ∈ zipfiles.dropLast, 2 ≤ (parts q).length)
    (hnone : ∀ q ∈ zipfiles.dropLast, (parts q).getD 1 "" ≠ "DATA") :
    data_file zipfiles = Except.error PyError.listIndexOutOfRange := by
  have hfil : zipfiles.dropLast.filter isDATA = [] :=
    List.filter_eq_nil_iff.mpr
      (fun q hq => by simp only [isDATA, beq_iff_eq]; exact hnone q hq)
  simp [data_file, select_DATA_ok _ hlen, hfil]

/-- Witness for C5 (amended) at a listing with well-formed paths and no
DATA entry among the scanned ones. -/
theorem data_file_no_match_empty_selection_error_witness :
    data_file ["a/DOCUMENT/r.txt", "a/BROWSE/t.png"] =
      Except.error PyError.listIndexOutOfRange :=
  data_file_no_match_empty_selection_error ["a/DOCUMENT/r.txt", "a/BROWSE/t.png"]
    (by decide) (by decide)

/-- C10: if any entry other than the last of the listing has fewer than
two path components, the locator fails with the scan-time IndexError
(`tuple index out of range` from `PurePath(file).parts[1]`), because the
comprehension indexes component 1 of every scanned path unconditionally
-- even when an entry with second component "DATA" is present. -/
theorem data_file_short_path_scan_error (zipfiles : List String)
    (h : ∃ q ∈ zipfiles.dropLast, (parts q).length < 2) :
    data_file zipfiles = Except.error PyError.tupleIndexOutOfRange := by
  simp [data_file, select_DATA_error_of_short _ h]

/-- Witness for C10 at a listing holding a bare top-level name and a DATA
entry among the scanned paths. -/
theorem data_file_short_path_scan_error_witness :
    (parts "a/DATA/f.img").getD 1 "" = "DATA" ∧
    data_file ["x", "a/DATA/f.img", "b/BROWSE/t.png"] =
      Except.error PyError.tupleIndexOutOfRange :=
  ⟨by decide,
   data_file_short_path_scan_error ["x", "a/DATA/f.img", "b/BROWSE/t.png"]
     (by decide)⟩

/-! ## Helper lemmas about the label reader -/

theorem read_label_loop_no_end (fuel : Nat) :
    ∀ (line : String) (rest label : List String),
      pyStrip line ≠ "END" → (∀ l ∈ rest, pyStrip l ≠ "END") →
      read_label_loop fuel line rest label = none := by
  induction fuel with
  | zero => intro line rest label h1 h2; rfl
  | succ f ih =>
      intro line rest label h1 h2
      simp only [read_label_loop, if_neg h1]
      by_cases h0 : pyStrip line = ""
      · rw [if_pos h0]
        cases rest with
        | nil => exact ih "" [] label (by decide) (by simp)
        | cons a t =>
            exact ih a t label (h2 a (List.mem_cons_self a t))
              (fun l hl => h2 l (List.mem_cons_of_mem a hl))
      · rw [if_neg h0]
        cases rest with
        | nil => exact ih "" [] _ (by decide) (by simp)
        | cons a t =>
            exact ih a t _ (h2 a (List.mem_cons_self a t))
              (fun l hl => h2 l (List.mem_cons_of_mem a hl))

theorem read_label_loop_mono :
    ∀ (f f' : Nat) (line : String) (rest label out : List String),
      f ≤ f' → read_label_loop f line rest label = some out →
      read_label_loop f' line rest label = some out := by
  intro f
  induction f with
  | zero =>
      intro f' l r lab out h hsome
      exact absurd hsome (by simp [read_label_loop])
  | succ g ih =>
      intro f' l r lab out h hsome
      obtain ⟨g', rfl⟩ : ∃ g', f' = g' + 1 := ⟨f' - 1, by omega⟩
      by_cases h1 : pyStrip l = "END"
      · simp only [read_label_loop, if_pos h1] at hsome ⊢
        exact hsome
      · by_cases h0 : pyStrip l = ""
        · simp only [read_label_loop, if_neg h1, if_pos h0] at hsome ⊢
          exact ih g' _ _ _ _ (by omega) hsome
        · simp only [read_label_loop, if_neg h1, if_neg h0] at hsome ⊢
          exact ih g' _ _ _ _ (by omega) hsome

/-! ## Claim theorems about the label reader -/

/-- C2: on a label whose lines never strip to the sentinel "END", the
reader does not report a malformed-label error: it does not terminate at
all. At end of file `readline` returns the empty string forever, the
stripped empty string is neither "END" nor appended, and the loop spins.
For every fuel bound the loop is still running, which is non-termination
of the Python `while` loop. -/
theorem read_label_no_end_diverges (fuel : Nat) (entry : List String)
    (h : ∀ l ∈ entry, pyStrip l ≠ "END") :
    read_label fuel entry = none := by
  cases entry with
  | nil =>
      have hz := read_label_loop_no_end fuel "" [] [] (by decide) (by simp)
      simp [read_label, readlineEOF, hz]
  | cons a t =>
      have hz := read_label_loop_no_end fuel a t [] (h a (List.mem_cons_self a t))
        (fun l hl => h l (List.mem_cons_of_mem a hl))
      simp [read_label, readlineEOF, hz]

/-- Witness for C2 at the failing input: a one-line label with no "END"
sentinel; the reader has produced nothing after 1000 iterations. -/
theorem read_label_no_end_diverges_witness :
    read_label 1000 ["A = 1\n"] = none :=
  read_label_no_end_diverges 1000 ["A = 1\n"] (by decide)

/-- C8: on the label lines "A = 1", "B = 2", blank, "END" the reader
accumulates exactly the stripped lines "A = 1" and "B = 2" joined with
CRLF, skipping the blank line and stopping at the sentinel without
touching any later line; proved for every sufficient fuel bound and every
tail of extra lines after "END". -/
theorem read_label_c8_example (f : Nat) (extra : List String) :
    read_label (f + 4) (["A = 1\n", "B = 2\n", "\n", "END\n"] ++ extra) =
      some "A = 1\r\nB = 2" := by
  have h4 : read_label_loop 4 "A = 1\n" (["B = 2\n", "\n", "END\n"] ++ extra) [] =
      some ["A = 1", "B = 2"] := rfl
  have hbig := read_label_loop_mono 4 (f + 4) _ _ _ _ (by omega) h4
  show (read_label_loop (f + 4) "A = 1\n" (["B = 2\n", "\n", "END\n"] ++ extra)
      []).map (String.intercalate "\r\n") = some "A = 1\r\nB = 2"
  rw [hbig]
  rfl

/-! ## Claim theorems about the image unpacker (offset, truncation,
determinism, and the concrete 2x2 example) -/

/-- C1, counterexample: on the 4 little-endian uint16 samples
10, 20, 30, 40 with P=1, R=0, L=2, S=2 the unpacker does NOT return
the column-major grid [[10,30],[20,40]] stated by the claim:
`np.reshape((S, L))` fills the grid in row-major (C) order. -/
theorem unpack_image_c1_counterexample :
    unpack_image [10, 0, 20, 0, 30, 0, 40, 0] 1 0 2 2 ≠
      Except.ok [[10, 30], [20, 40]] := by decide

/-- C1 (amended): on the same input the unpacker returns the grid
[[10,20],[30,40]]: the flat sample sequence is laid into the
(S, L)-shaped grid row-major; only the shape is transposed relative to
(rows, columns), not the element order. -/
theorem unpack_image_c1_example :
    unpack_image [10, 0, 20, 0, 30, 0, 40, 0] 1 0 2 2 =
      Except.ok [[10, 20], [30, 40]] := by decide

/-- C3: whenever the required bytes (P-1)*R + 2*L*S exceed the buffer
length, the unpacker fails with the dedicated truncation error of the
struct module, raised by the up-front buffer-length check before any
byte is read; it does not return partial or garbage data. -/
theorem unpack_image_truncated (buf : List Nat) (P R L S : Nat)
    (_hP : 1 ≤ P) (h : buf.length < (P - 1) * R + 2 * (L * S)) :
    unpack_image buf P R L S = Except.error StructError.truncated := by
  simp [unpack_image, unpack_from, offset, h, Except.map]

/-- Witness for C3: a 3-byte buffer cannot hold one sample at byte
offset 2, so decoding fails with the truncation error. -/
theorem unpack_image_truncated_witness :
    unpack_image [1, 2, 3] 2 2 1 1 = Except.error StructError.truncated :=
  unpack_image_truncated [1, 2, 3] 2 2 1 1 (by decide) (by decide)

/-- C7: the byte offset the unpacker uses is (P-1)*R (as integers, for
the 1-based pointer P); `offset` takes only P and R, so the value is
independent of L and S, and P=3, R=100 gives 200. -/
theorem offset_formula (P R : Nat) (hP : 1 ≤ P) :
    ((offset P R : Nat) : Int) = ((P : Nat) - 1 : Int) * ((R : Nat) : Int) ∧
      offset 3 100 = 200 := by
  constructor
  · show (((P - 1) * R : Nat) : Int) = _
    push_cast [hP]
    ring
  · decide

/-- Witness for C7 at P=3, R=100. -/
theorem offset_formula_witness :
    ((offset 3 100 : Nat) : Int) = ((3 : Nat) - 1 : Int) * ((100 : Nat) : Int) ∧
      offset 3 100 = 200 :=
  offset_formula 3 100 (by decide)

/-- C9: the unpacker is a pure, deterministic function of
(bytes, P, R, L, S): it is embedded as a function with those arguments
alone, so two runs on equal inputs give equal grids and no other state
enters the computation. -/
theorem unpack_image_deterministic (b b' : List Nat) (P P' R R' L L' S S' : Nat)
    (hb : b = b') (hP : P = P') (hR : R = R') (hL : L = L') (hS : S = S') :
    unpack_image b P R L S = unpack_image b' P' R' L' S' := by
  subst hb; subst hP; subst hR; subst hL; subst hS; rfl

/-- Witness for C9: two runs on the same concrete input agree. -/
theorem unpack_image_deterministic_witness :
    unpack_image [10, 0, 20, 0] 1 0 1 2 = unpack_image [10, 0, 20, 0] 1 0 1 2 :=
  unpack_image_deterministic [10, 0, 20, 0] [10, 0, 20, 0] 1 1 0 0 1 1 2 2
    rfl rfl rfl rfl rfl

/-! ## Helper lemmas for the round-trip property -/

theorem helper_encodeSamples_length (vs : List Nat) :
    (encodeSamples vs).length = 2 * vs.length := by
  induction vs with
  | nil => rfl
  | cons v tl ih =>
      simp only [encodeSamples, List.flatMap_cons, List.length_append,
        List.length_cons] at ih ⊢
      simp [encodeU16LE, ih]
      omega

theorem helper_readU16LE_append (pre l : List Nat) (k : Nat) :
    readU16LE (pre ++ l) (pre.length + k) = readU16LE l k := by
  unfold readU16LE
  rw [List.getD_append_right pre l 0 (pre.length + k) (by omega),
      List.getD_append_right pre l 0 (pre.length + k + 1) (by omega)]
  have e1 : pre.length + k - pre.length = k := by omega
  have e2 : pre.length + k + 1 - pre.length = k + 1 := by omega
  rw [e1, e2]

theorem helper_readU16LE_encodeSamples (vs tl2 : List Nat) :
    ∀ i, i < vs.length → (∀ v ∈ vs, v < 65536) →
      readU16LE (encodeSamples vs ++ tl2) (2 * i) = vs.getD i 0 := by
  induction vs with
  | nil => intro i hi _; simp at hi
  | cons v tl ih =>
      intro i hi hbound
      have hcons : encodeSamples (v :: tl) ++ tl2 =
          v % 256 :: v / 256 % 256 :: (encodeSamples tl ++ tl2) := by
        simp [encodeSamples, encodeU16LE]
      cases i with
      | zero =>
          have hv : v < 65536 := hbound v (List.mem_cons_self v tl)
          rw [hcons]
          show (v % 256 :: v / 256 % 256 :: (encodeSamples tl ++ tl2)).getD (2 * 0) 0 +
              256 * (v % 256 :: v / 256 % 256 :: (encodeSamples tl ++ tl2)).getD (2 * 0 + 1) 0 =
            (v :: tl).getD 0 0
          simp only [Nat.mul_zero, Nat.zero_add, List.getD_cons_zero,
            List.getD_cons_succ]
          omega
      | succ j =>
          have hj : j < tl.length := by
            simp only [List.length_cons] at hi; omega
          have hb2 : ∀ w ∈ tl, w < 65536 :=
            fun w hw => hbound w (List.mem_cons_of_mem v hw)
          rw [hcons]
          have e1 : 2 * (j + 1) = 2 * j + 1 + 1 := by ring
          show (v % 256 :: v / 256 % 256 :: (encodeSamples tl ++ tl2)).getD (2 * (j + 1)) 0 +
              256 * (v % 256 :: v / 256 % 256 :: (encodeSamples tl ++ tl2)).getD (2 * (j + 1) + 1) 0 =
            (v :: tl).getD (j + 1) 0
          rw [e1]
          simp only [List.getD_cons_succ]
          exact ih j hj hb2

theorem helper_map_getD_range (l : List Nat) :
    (List.range l.length).map (fun i => l.getD i 0) = l := by
  induction l with
  | nil => rfl
  | cons a t ih =>
      rw [List.length_cons, List.range_succ_eq_map, List.map_cons, List.map_map]
      simp only [Function.comp_def, List.getD_cons_zero, List.getD_cons_succ]
      rw [ih]

theorem helper_reshape2_flatten (g : List (List Nat)) (L : Nat)
    (h : ∀ r ∈ g, r.length = L) :
    reshape2 g.flatten g.length L = g := by
  induction g with
  | nil => rfl
  | cons r t ih =>
      have hr : r.length = L := h r (List.mem_cons_self r t)
      have ht : ∀ q ∈ t, q.length = L := fun q hq => h q (List.mem_cons_of_mem r hq)
      show reshape2 (r ++ t.flatten) (t.length + 1) L = r :: t
      unfold reshape2
      rw [List.range_succ_eq_map, List.map_cons, List.map_map]
      have hhead : (List.range L).map (fun j => (r ++ t.flatten).getD (L * 0 + j) 0) = r := by
        have hc : ∀ j ∈ List.range L,
            (r ++ t.flatten).getD (L * 0 + j) 0 = r.getD j 0 := by
          intro j hj
          have hjL : j < L := List.mem_range.mp hj
          simp only [Nat.mul_zero, Nat.zero_add]
          exact List.getD_append r t.flatten 0 j (by omega)
        rw [List.map_congr_left hc, ← hr]
        exact helper_map_getD_range r
      have htail : (List.range t.length).map
            ((fun i => (List.range L).map fun j => (r ++ t.flatten).getD (L * i + j) 0) ∘
              Nat.succ) = t := by
        have hc : ∀ i ∈ List.range t.length,
            ((fun i => (List.range L).map fun j => (r ++ t.flatten).getD (L * i + j) 0) ∘
              Nat.succ) i =
            (List.range L).map (fun j => t.flatten.getD (L * i + j) 0) := by
          intro i _
          simp only [Function.comp_def]
          refine List.map_congr_left (fun j _ => ?_)
          have e1 : L * Nat.succ i + j = r.length + (L * i + j) := by
            rw [hr, Nat.succ_eq_add_one]; ring
          rw [e1, List.getD_append_right r t.flatten 0 _ (by omega)]
          congr 1
          omega
        rw [List.map_congr_left hc]
        exact ih ht
      rw [hhead, htail]

/-- C6: round-trip. Encoding any uint16 grid of shape (S, L) row-major as
consecutive 2-byte little-endian integers at byte offset (P-1)*R of a
sufficiently large buffer (arbitrary bytes before and after) and decoding
with the unpacker using the same P, R, L, S recovers the grid exactly. -/
theorem unpack_image_roundtrip (g : List (List Nat)) (P R L S : Nat)
    (pad sfx : List Nat)
    (_hP : 1 ≤ P)
    (hS : g.length = S)
    (hL : ∀ r ∈ g, r.length = L)
    (hv : ∀ r ∈ g, ∀ v ∈ r, v < 65536)
    (hpad : pad.length = (P - 1) * R) :
    unpack_image (pad ++ encodeGrid g ++ sfx) P R L S = Except.ok g := by
  subst hS
  have hpadoff : pad.length = offset P R := hpad
  have hflat : g.flatten.length = g.length * L := by
    rw [List.length_flatten]
    have h1 : g.map List.length = List.replicate g.length L := by
      rw [List.eq_replicate_iff]
      refine ⟨by simp, fun b hb => ?_⟩
      obtain ⟨r, hrg, rfl⟩ := List.mem_map.mp hb
      exact hL r hrg
    rw [h1, List.sum_replicate, smul_eq_mul]
  have henc : (encodeGrid g).length = 2 * (g.length * L) := by
    rw [encodeGrid, helper_encodeSamples_length, hflat]
  have hvflat : ∀ v ∈ g.flatten, v < 65536 := by
    intro v hvm
    obtain ⟨r, hrg, hvr⟩ := List.mem_flatten.mp hvm
    exact hv r hrg v hvr
  have hassoc : pad ++ encodeGrid g ++ sfx = pad ++ (encodeGrid g ++ sfx) :=
    List.append_assoc pad (encodeGrid g) sfx
  have hlen : ¬ ((pad ++ encodeGrid g ++ sfx).length <
      offset P R + 2 * (L * g.length)) := by
    simp only [List.length_append, henc]
    rw [← hpadoff]
    have hc : L * g.length = g.length * L := Nat.mul_comm L g.length
    omega
  have hread : ∀ i ∈ List.range (L * g.length),
      readU16LE (pad ++ encodeGrid g ++ sfx) (offset P R + 2 * i) =
        g.flatten.getD i 0 := by
    intro i hi
    have hiL : i < L * g.length := List.mem_range.mp hi
    rw [hassoc, ← hpadoff,
      helper_readU16LE_append pad (encodeGrid g ++ sfx) (2 * i), encodeGrid]
    refine helper_readU16LE_encodeSamples g.flatten sfx i ?_ hvflat
    rw [hflat, Nat.mul_comm g.length L]
    exact hiL
  show Except.map (fun flat => reshape2 flat g.length L)
      (unpack_from (L * g.length) (pad ++ encodeGrid g ++ sfx) (offset P R)) =
    Except.ok g
  simp only [unpack_from]
  rw [if_neg hlen]
  simp only [Except.map]
  rw [List.map_congr_left hread]
  have hrange : L * g.length = g.flatten.length := by
    rw [hflat, Nat.mul_comm g.length L]
  rw [hrange, helper_map_getD_range, helper_reshape2_flatten g L hL]

/-- Witness for C6: a concrete 2x2 grid encoded at record 2 with 3-byte
records (offset 3), with trailing junk, decodes back to itself. -/
theorem unpack_image_roundtrip_witness :
    unpack_image ([9, 9, 9] ++ encodeGrid [[500, 2], [3, 40000]] ++ [1]) 2 3 2 2 =
      Except.ok [[500, 2], [3, 40000]] :=
  unpack_image_roundtrip [[500, 2], [3, 40000]] 2 3 2 2 [9, 9, 9] [1]
    (by decide) (by decide) (by decide) (by decide) (by decide)
